import Mathlib

/-!
Verification of the statistics and report-aggregation engine of the
google-data-analyzer repository.

The repository contains two statistics variants: the methods of
`MboxAnalyzer` in `src/mbox_analyzer.py` (present in the source tree) and a
standalone `statistics` module (referenced by `tests/test_statistics.py` but
absent from the source tree).  Definitions embedding the present code are
translated directly from `src/mbox_analyzer.py` / `src/report_utils.py`;
definitions for the missing standalone module are modelled from the spec and
carry a doc comment starting `Modelled from the spec:`.

Numeric conventions of the embedding: byte counts are `Nat`, signed byte
differences are `Int`, and Python float results (averages, percentages,
medians) are modelled as exact rationals `ℚ`.  Python raises
`ZeroDivisionError` on division by zero; in `ℚ` the same expression denotes
`0`, which is only relied upon where the analysis explicitly discusses the
zero-divisor case.  Python's float formatting `f"{x:.2f}"` rounds the exact
value half-to-even at two decimals; repeated division of an integer by `1024`
is exact in binary floating point for all realistic sizes, so the rational
model below reproduces the Python strings.
-/

attribute [local semireducible] Rat.add Rat.mul Rat.inv Rat.sub

/-- Zero-pads a natural number below 100 to two digits, as the fractional part
of Python's fixed-point rendering. -/
def pad2 (n : Nat) : String :=
  if n < 10 then "0" ++ toString n else toString n

/-- Nearest integer to a rational, ties to even, as in IEEE-754/Python float
rounding used by the `.2f` format. -/
def roundHalfEven (q : ℚ) : ℤ :=
  let f : ℤ := ⌊q⌋
  if q - f < 1/2 then f
  else if (1 : ℚ)/2 < q - f then f + 1
  else if f % 2 = 0 then f else f + 1

/-- Renders a rational with exactly two decimal places, sign first, modelling
Python's `f"{x:.2f}"` applied to the exact value. -/
def fmt2 (q : ℚ) : String :=
  let sign := if q < 0 then "-" else ""
  let h : Nat := (roundHalfEven (|q| * 100)).toNat
  sign ++ toString (h / 100) ++ "." ++ pad2 (h % 100)

/-- Loop of `format_size` in `src/report_utils.py` (lines 65-79): walk the unit
list, returning as soon as the value is below 1024, otherwise divide by 1024
and continue; after `TB` the terminal unit is `PB`. -/
def formatSizeLoop : List String → ℚ → String
  | [], v => fmt2 v ++ " " ++ "PB"
  | u :: us, v => if v < 1024 then fmt2 v ++ " " ++ u else formatSizeLoop us (v / 1024)

/-- Embeds `format_size` from `src/report_utils.py` (identical code appears as
`MboxAnalyzer._format_size` in `src/mbox_analyzer.py` and in
`src/content_analyzer.py`). -/
def format_size (v : ℚ) : String :=
  formatSizeLoop ["B", "KB", "MB", "GB", "TB"] v

/-- Unit name reached after `k` divisions by 1024. -/
def unitAt : Nat → String
  | 0 => "B"
  | 1 => "KB"
  | 2 => "MB"
  | 3 => "GB"
  | 4 => "TB"
  | _ => "PB"

/-- Modelled from the spec: `mean` of the missing standalone statistics
module (spec section 4.1): arithmetic mean, `0` for empty input. -/
def calculate_mean (l : List ℚ) : ℚ :=
  if l = [] then 0 else l.sum / l.length

/-- Insertion step of an ascending insertion sort on rationals. -/
def insertAsc (x : ℚ) : List ℚ → List ℚ
  | [] => [x]
  | y :: ys => if x ≤ y then x :: y :: ys else y :: insertAsc x ys

/-- Ascending sort of a rational list (a sorted copy, as Python's `sorted`). -/
def sortAsc : List ℚ → List ℚ
  | [] => []
  | x :: xs => insertAsc x (sortAsc xs)

/-- Modelled from the spec: `median` of the missing standalone statistics
module (spec section 4.1): sort a copy; odd length takes the middle element,
even length averages the two middle elements; `0` for empty input. -/
def calculate_median (l : List ℚ) : ℚ :=
  if l = [] then 0
  else
    let s := sortAsc l
    let n := s.length
    if n % 2 = 1 then s.getD (n / 2) 0
    else (s.getD (n / 2 - 1) 0 + s.getD (n / 2) 0) / 2

/-- Insertion step of the stable descending-by-count sort: the new element is
placed before the first entry whose count does not exceed its own, so earlier
elements win ties.  This reproduces Python's stable
`sorted(items, key=count, reverse=True)` used by `Counter.most_common`. -/
def insertByCount {α : Type} (x : α × Nat) : List (α × Nat) → List (α × Nat)
  | [] => [x]
  | y :: ys => if y.2 ≤ x.2 then x :: y :: ys else y :: insertByCount x ys

/-- Stable sort of counter entries by count descending, ties in first-seen
order, as `Counter.most_common` iterates. -/
def sortCountDesc {α : Type} : List (α × Nat) → List (α × Nat)
  | [] => []
  | x :: xs => insertByCount x (sortCountDesc xs)

/-- Result record of the sender aggregator (spec section 4.2, fields asserted
by `tests/test_statistics.py`). -/
structure SenderStats where
  top_senders : List (String × Nat)
  unique_senders : Nat
  most_frequent_sender : String
  most_frequent_sender_count : Nat
deriving DecidableEq

/-- Result record of the recipient aggregator, structurally identical to
`SenderStats` with recipient-named fields. -/
structure RecipientStats where
  top_recipients : List (String × Nat)
  unique_recipients : Nat
  most_frequent_recipient : String
  most_frequent_recipient_count : Nat
deriving DecidableEq

/-- Modelled from the spec: `sender_stats` of the missing standalone
statistics module (spec section 4.2): `{}` on an empty counter, otherwise the
top-10 entries by count descending with first-seen tie-break, the number of
unique senders, and the single highest-count entry. -/
def sender_stats (counts : List (String × Nat)) : Option SenderStats :=
  match counts with
  | [] => none
  | c :: cs =>
    let sorted := sortCountDesc (c :: cs)
    let best := sorted.headD c
    some { top_senders := sorted.take 10
           unique_senders := (c :: cs).length
           most_frequent_sender := best.1
           most_frequent_sender_count := best.2 }

/-- Modelled from the spec: `recipient_stats` of the missing standalone
statistics module, structurally identical to `sender_stats` (spec section
4.2). -/
def recipient_stats (counts : List (String × Nat)) : Option RecipientStats :=
  match counts with
  | [] => none
  | c :: cs =>
    let sorted := sortCountDesc (c :: cs)
    let best := sorted.headD c
    some { top_recipients := sorted.take 10
           unique_recipients := (c :: cs).length
           most_frequent_recipient := best.1
           most_frequent_recipient_count := best.2 }

/-- Result record of the body-size aggregator of the standalone statistics
module (spec section 4.4): includes the median, unlike the
`MboxAnalyzer` variant. -/
structure BodySizeStats where
  count : Nat
  total_size : Nat
  total_size_human : String
  avg_size : ℚ
  avg_size_human : String
  min_size : Nat
  min_size_human : String
  max_size : Nat
  max_size_human : String
  median_size : ℚ
  median_size_human : String
deriving DecidableEq

/-- Modelled from the spec: `body_size_stats` of the missing standalone
statistics module (spec section 4.4): `{}` on an empty size list, otherwise
count, total, exact average, min, max and median, each size with a
human-readable sibling. -/
def body_size_stats (sizes : List Nat) : Option BodySizeStats :=
  match sizes with
  | [] => none
  | s :: ss =>
    let total := (s :: ss).sum
    let n := (s :: ss).length
    let avg : ℚ := (total : ℚ) / (n : ℚ)
    let mn := ss.foldl min s
    let mx := ss.foldl max s
    let med := calculate_median ((s :: ss).map (fun k => (k : ℚ)))
    some { count := n
           total_size := total
           total_size_human := format_size (total : ℚ)
           avg_size := avg
           avg_size_human := format_size avg
           min_size := mn
           min_size_human := format_size (mn : ℚ)
           max_size := mx
           max_size_human := format_size (mx : ℚ)
           median_size := med
           median_size_human := format_size med }

/-- One `by_type` entry of the attachment aggregator. -/
structure AttachmentTypeEntry where
  type : String
  count : Nat
  percentage : ℚ
  total_size : Nat
  total_size_human : String
  avg_size : ℚ
  avg_size_human : String
deriving DecidableEq

/-- Result record of the attachment aggregator. -/
structure AttachmentStats where
  total_count : Nat
  unique_types : Nat
  by_type : List AttachmentTypeEntry
deriving DecidableEq

/-- Python's `sizes.get(ext, [])` on the sizes-by-extension mapping. -/
def lookupSizes (sizes : List (String × List Nat)) (ext : String) : List Nat :=
  match sizes.lookup ext with
  | some v => v
  | none => []

/-- Builds one `by_type` entry as in `MboxAnalyzer.calculate_statistics`
(`src/mbox_analyzer.py` lines 441-453): percentage of the total count, total
size from the sizes mapping (zero when the extension is absent), average size
guarded by a positive count. -/
def attachmentEntry (total : Nat) (sizes : List (String × List Nat))
    (ec : String × Nat) : AttachmentTypeEntry :=
  let sz := lookupSizes sizes ec.1
  let ts := sz.sum
  { type := ec.1
    count := ec.2
    percentage := (ec.2 : ℚ) / (total : ℚ) * 100
    total_size := ts
    total_size_human := format_size (ts : ℚ)
    avg_size := if 0 < ec.2 then (ts : ℚ) / (ec.2 : ℚ) else 0
    avg_size_human := if 0 < ec.2 then format_size ((ts : ℚ) / (ec.2 : ℚ)) else "0 B" }

/-- Embeds the attachment-statistics block of
`MboxAnalyzer.calculate_statistics` (`src/mbox_analyzer.py` lines 429-453),
which coincides with the spec's `attachment_stats` aggregator (spec section
4.5): guarded by a non-empty counter, iterating `most_common()` over all
extensions.  The percentage division `count / total_attachments` raises
`ZeroDivisionError` in Python when the non-empty counter sums to zero;
`attachment_stats_checked` below models that exception path, and on every
execution with a positive total the two translations coincide
(`attachment_stats_checked_ok`). -/
def attachment_stats (counts : List (String × Nat))
    (sizes : List (String × List Nat)) : Option AttachmentStats :=
  match counts with
  | [] => none
  | c :: cs =>
    let total := ((c :: cs).map Prod.snd).sum
    some { total_count := total
           unique_types := (c :: cs).length
           by_type := (sortCountDesc (c :: cs)).map (attachmentEntry total sizes) }

/-- Exception-aware translation of the same attachment-statistics block
(`src/mbox_analyzer.py` lines 429-453): with a non-empty counter the loop
over `most_common()` computes `(count / total_attachments) * 100` at its
first entry, so the block raises `ZeroDivisionError` exactly when the counts
sum to zero, and otherwise completes with the record of
`attachment_stats`. -/
def attachment_stats_checked (counts : List (String × Nat))
    (sizes : List (String × List Nat)) : Except String (Option AttachmentStats) :=
  match counts with
  | [] => Except.ok none
  | c :: cs =>
    let total := ((c :: cs).map Prod.snd).sum
    if total = 0 then Except.error "ZeroDivisionError"
    else Except.ok (some
      { total_count := total
        unique_types := (c :: cs).length
        by_type := (sortCountDesc (c :: cs)).map (attachmentEntry total sizes) })

/-- One `by_type` entry of the missing-header aggregator. -/
structure MissingHeaderEntry where
  header : String
  count : Nat
deriving DecidableEq

/-- Result record of the missing-header aggregator. -/
structure MissingHeaderStats where
  total_count : Nat
  by_type : List MissingHeaderEntry
deriving DecidableEq

/-- Embeds the missing-header block of `MboxAnalyzer.calculate_statistics`
(`src/mbox_analyzer.py` lines 455-461), coinciding with the spec's
`missing_header_stats` (spec section 4.3). -/
def missing_header_stats (counts : List (String × Nat)) : Option MissingHeaderStats :=
  match counts with
  | [] => none
  | c :: cs =>
    some { total_count := ((c :: cs).map Prod.snd).sum
           by_type := (sortCountDesc (c :: cs)).map (fun p => ⟨p.1, p.2⟩) }

/-- Python's `max(items, key=count)`: folds left keeping the current element
unless the new one is strictly larger, so the first maximal entry wins. -/
def pickBusiest (x : String × Nat) (xs : List (String × Nat)) : String × Nat :=
  xs.foldl (fun b y => if b.2 < y.2 then y else b) x

/-- Result record of the date-distribution aggregator of the standalone
statistics module (spec section 4.6): includes the monthly mean and median,
unlike the `MboxAnalyzer` variant. -/
structure DateDistributionStats where
  first_month : String
  last_month : String
  total_months : Nat
  busiest_month : String
  busiest_month_count : Nat
  monthly_average : ℚ
  monthly_median : ℚ
deriving DecidableEq

/-- Modelled from the spec: `date_distribution_stats` of the missing
standalone statistics module (spec section 4.6): `{}` on empty input,
otherwise lexicographic first and last month, number of months, busiest month
with first-seen tie-break, and mean plus median of the monthly counts. -/
def date_distribution_stats (dist : List (String × Nat)) : Option DateDistributionStats :=
  match dist with
  | [] => none
  | d :: ds =>
    let busiest := pickBusiest d ds
    let countsQ := (d :: ds).map (fun p => ((p.2 : ℚ)))
    some { first_month := ds.foldl (fun a y => min a y.1) d.1
           last_month := ds.foldl (fun a y => max a y.1) d.1
           total_months := (d :: ds).length
           busiest_month := busiest.1
           busiest_month_count := busiest.2
           monthly_average := calculate_mean countsQ
           monthly_median := calculate_median countsQ }

/-- Result record of the size-comparison aggregator. -/
structure SizeComparisonStats where
  original_file_size : ℤ
  original_file_size_human : String
  parsed_data_size : ℤ
  parsed_data_size_human : String
  difference : ℤ
  difference_human : String
  difference_percentage : ℚ
deriving DecidableEq

/-- Modelled from the spec: `size_comparison_stats` of the missing standalone
statistics module (spec section 4.7): always returns a populated record; the
difference may be negative; the percentage falls back to `0` exactly when the
original size is `0`. -/
def size_comparison_stats (original_size parsed_size : ℤ) : SizeComparisonStats :=
  let diff := original_size - parsed_size
  { original_file_size := original_size
    original_file_size_human := format_size (original_size : ℚ)
    parsed_data_size := parsed_size
    parsed_data_size_human := format_size (parsed_size : ℚ)
    difference := diff
    difference_human := format_size (diff : ℚ)
    difference_percentage :=
      if original_size ≠ 0 then (diff : ℚ) / (original_size : ℚ) * 100 else 0 }

/-- Python's `mapping.get(key, [])` on a lists-valued mapping. -/
def lookupList (m : List (String × List Nat)) (k : String) : List Nat :=
  (m.lookup k).getD []

/-- Modelled from the spec: `calculate_parsed_data_size` of the missing
standalone statistics module (spec section 4.7): sums the plain-text sizes,
the html sizes and every attachment size list, absent keys contributing
zero.  The variant present in the source,
`MboxAnalyzer._calculate_parsed_data_size` (`src/mbox_analyzer.py` lines
489-508), computes the same sum over its report fields. -/
def calculate_parsed_data_size (body_sizes attachment_sizes : List (String × List Nat)) : Nat :=
  (lookupList body_sizes "plain_text").sum + (lookupList body_sizes "html").sum
    + (attachment_sizes.map (fun p => p.2.sum)).sum

/-- Optional `file_metadata` section of the accumulated-facts input (spec
section 4.8): either sub-key may be absent. -/
structure FileMetadataFacts where
  email_count : Option Nat
  file_size : Option Nat
deriving DecidableEq

/-- Header counters consumed by the orchestrator (spec section 4.8). -/
structure HeadersFacts where
  from_addrs : List (String × Nat)
  to_addrs : List (String × Nat)
  missing_headers : List (String × Nat)
  date_distribution : List (String × Nat)
deriving DecidableEq

/-- Body-size lists of the content section. -/
structure BodySizesFacts where
  plain_text : List Nat
  html : List Nat
deriving DecidableEq

/-- Attachment counters of the content section. -/
structure AttachmentsFacts where
  counts_by_type : List (String × Nat)
  sizes_by_type : List (String × List Nat)
deriving DecidableEq

/-- Content section of the accumulated facts. -/
structure ContentFacts where
  body_sizes : BodySizesFacts
  attachments : AttachmentsFacts
deriving DecidableEq

/-- Accumulated-facts input of the orchestrator; any section may be absent. -/
structure ReportFacts where
  file_metadata : Option FileMetadataFacts
  headers : Option HeadersFacts
  content : Option ContentFacts
deriving DecidableEq

/-- Header section with all counters empty, the reading an absent section
gets under Python's `.get` defaults. -/
def emptyHeaders : HeadersFacts := ⟨[], [], [], []⟩

/-- Content section with all lists empty. -/
def emptyContent : ContentFacts := ⟨⟨[], []⟩, ⟨[], []⟩⟩

/-- Body-size lists rebundled as the mapping passed to
`calculate_parsed_data_size`. -/
def bodySizesPairs (b : BodySizesFacts) : List (String × List Nat) :=
  [("plain_text", b.plain_text), ("html", b.html)]

/-- Final statistics report of the standalone statistics module: every
section is optional, `none` standing for an absent key. -/
structure StatisticsReport where
  email_count : Option Nat
  sender_summary : Option SenderStats
  recipient_summary : Option RecipientStats
  plain_text_body : Option BodySizeStats
  html_body : Option BodySizeStats
  attachments : Option AttachmentStats
  missing_headers : Option MissingHeaderStats
  date_distribution : Option DateDistributionStats
  size_comparison : Option SizeComparisonStats
deriving DecidableEq

/-- Modelled from the spec: `calculate_statistics` of the missing standalone
statistics module (spec section 4.8): copies `email_count` whenever present
(even when zero), invokes each aggregator — which contributes nothing on
empty input — and computes the size comparison exactly when
`file_metadata.file_size` is present, over whatever body and attachment data
exists. -/
def calculate_statistics (facts : ReportFacts) : StatisticsReport :=
  let hs := (facts.headers).getD emptyHeaders
  let ct := (facts.content).getD emptyContent
  let parsed := calculate_parsed_data_size (bodySizesPairs ct.body_sizes)
    ct.attachments.sizes_by_type
  { email_count := facts.file_metadata.bind (fun m => m.email_count)
    sender_summary := sender_stats hs.from_addrs
    recipient_summary := recipient_stats hs.to_addrs
    plain_text_body := body_size_stats ct.body_sizes.plain_text
    html_body := body_size_stats ct.body_sizes.html
    attachments := attachment_stats ct.attachments.counts_by_type
      ct.attachments.sizes_by_type
    missing_headers := missing_header_stats hs.missing_headers
    date_distribution := date_distribution_stats hs.date_distribution
    size_comparison := (facts.file_metadata.bind (fun m => m.file_size)).map
      (fun fs => size_comparison_stats (fs : ℤ) (parsed : ℤ)) }

/-- Index of the last occurrence of a character, as Python's `str.rfind`
(`none` standing for `-1`). -/
def lastIdx (c : Char) : List Char → Option Nat
  | [] => none
  | a :: as =>
    match lastIdx c as with
    | some i => some (i + 1)
    | none => if a = c then some 0 else none

/-- Python's `posixpath.splitext(p)[1]`: the suffix from the last dot, when
that dot lies after the last path separator and is preceded, within the base
name, by at least one non-dot character; otherwise the empty string. -/
def splitextExt (s : String) : String :=
  let cs := s.data
  let sepIndex : ℤ := match lastIdx '/' cs with | some i => (i : ℤ) | none => -1
  let dotIndex : ℤ := match lastIdx '.' cs with | some i => (i : ℤ) | none => -1
  if sepIndex < dotIndex then
    if ((cs.drop (sepIndex + 1).toNat).take (dotIndex - sepIndex - 1).toNat).any
        (fun c => c ≠ '.') then
      String.mk (cs.drop dotIndex.toNat)
    else ""
  else ""

/-- Python's `str.lower` restricted to ASCII, which covers the extension
strings the analyzer builds. -/
def lowerStr (s : String) : String :=
  String.mk (s.data.map Char.toLower)

/-- Python's `extension or 'unknown'` applied to the lowercased extension of
a filename (`src/mbox_analyzer.py` lines 312-313 and 338-339). -/
def extKey (filename : String) : String :=
  let e := lowerStr (splitextExt filename)
  if e = "" then "unknown" else e

/-- Membership of one character list inside another starting at the front. -/
def leadsChars : List Char → List Char → Bool
  | [], _ => true
  | _ :: _, [] => false
  | a :: as, b :: bs => a = b && leadsChars as bs

/-- Substring test on character lists, as Python's `in` on strings. -/
def hasSub (needle : List Char) : List Char → Bool
  | [] => needle.isEmpty
  | c :: cs => leadsChars needle (c :: cs) || hasSub needle cs

/-- Python's `'attachment' in disposition`. -/
def hasAttachmentWord (disposition : String) : Bool :=
  hasSub "attachment".data disposition.data

/-- One leaf of an email message as the analyzer reads it: content type,
decoded payload size, decoded filename (empty string for none) and
content-disposition header. -/
structure MimePart where
  is_multipart : Bool
  content_type : String
  content_size : Nat
  filename : String
  disposition : String
deriving DecidableEq

/-- Shape of one mailbox message for `analyze_content`: a single-part message
or a multipart message whose `walk()` yields the given parts. -/
inductive MboxMessage where
  | single (p : MimePart)
  | multi (parts : List MimePart)
deriving DecidableEq

/-- Python's `Counter[key] += 1` on an insertion-ordered counter. -/
def bumpCount (k : String) : List (String × Nat) → List (String × Nat)
  | [] => [(k, 1)]
  | (a, n) :: rest =>
    if a = k then (a, n + 1) :: rest else (a, n) :: bumpCount k rest

/-- Python's `defaultdict(list)[key].append(sz)` on an insertion-ordered
mapping. -/
def pushSize (k : String) (sz : Nat) : List (String × List Nat) → List (String × List Nat)
  | [] => [(k, [sz])]
  | (a, l) :: rest =>
    if a = k then (a, l ++ [sz]) :: rest else (a, l) :: pushSize k sz rest

/-- Records one attachment: increments its extension's count and appends its
size to that extension's size list (`src/mbox_analyzer.py` lines 313-314 and
339-340). -/
def recordAttachment (ext : String) (sz : Nat) (a : AttachmentsFacts) : AttachmentsFacts :=
  { counts_by_type := bumpCount ext a.counts_by_type
    sizes_by_type := pushSize ext sz a.sizes_by_type }

/-- Appends the per-message body totals to the body-size lists, skipping
zero totals (`src/mbox_analyzer.py` lines 343-348). -/
def pushBody (pts hts : Nat) (c : ContentFacts) : ContentFacts :=
  let c1 := if 0 < pts then
    { c with body_sizes := { c.body_sizes with plain_text := c.body_sizes.plain_text ++ [pts] } }
    else c
  if 0 < hts then
    { c1 with body_sizes := { c1.body_sizes with html := c1.body_sizes.html ++ [hts] } }
  else c1

/-- Processing of one walked part of a multipart message
(`src/mbox_analyzer.py` lines 319-341): nested multipart containers are
skipped; plain and html sizes accumulate into the per-message totals; a part
with a filename or an attachment disposition is recorded as an attachment. -/
def stepPart (acc : Nat × Nat × ContentFacts) (p : MimePart) : Nat × Nat × ContentFacts :=
  if p.is_multipart then acc
  else
    let pts := if p.content_type = "text/plain" then acc.1 + p.content_size else acc.1
    let hts := if p.content_type = "text/html" then acc.2.1 + p.content_size else acc.2.1
    let c := acc.2.2
    let ek := if p.filename ≠ "" then extKey p.filename else "unknown"
    let c1 :=
      if p.filename ≠ "" ∨ hasAttachmentWord p.disposition then
        { c with attachments := recordAttachment ek p.content_size c.attachments }
      else c
    (pts, hts, c1)

/-- Embeds `MboxAnalyzer.analyze_content` (`src/mbox_analyzer.py` lines
284-356) as a step on the accumulated content facts: a single-part message is
classified as plain text, html, or — when it has a filename — an attachment;
a multipart message walks its parts and then appends the positive body
totals. -/
def analyze_content (m : MboxMessage) (c : ContentFacts) : ContentFacts :=
  match m with
  | .single p =>
    if p.content_type = "text/plain" then pushBody p.content_size 0 c
    else if p.content_type = "text/html" then pushBody 0 p.content_size c
    else if p.filename ≠ "" then
      { c with attachments := recordAttachment (extKey p.filename) p.content_size c.attachments }
    else c
  | .multi parts =>
    let r := parts.foldl stepPart (0, 0, c)
    pushBody r.1 r.2.1 r.2.2

/-- Content facts reached by analyzing a list of messages from the initial
empty report. -/
def runContent (ms : List MboxMessage) : ContentFacts :=
  ms.foldl (fun c m => analyze_content m c) emptyContent

/-- Total attachment count across extensions. -/
def attTotalCounts (a : AttachmentsFacts) : Nat :=
  (a.counts_by_type.map Prod.snd).sum

/-- Total number of recorded attachment sizes across extensions. -/
def attTotalSizesLen (a : AttachmentsFacts) : Nat :=
  (a.sizes_by_type.map (fun p => p.2.length)).sum

/-- Body-size record of `MboxAnalyzer.calculate_statistics`
(`src/mbox_analyzer.py` lines 403-427): no median fields. -/
structure MABodyStats where
  count : Nat
  total_size : Nat
  total_size_human : String
  avg_size : ℚ
  avg_size_human : String
  min_size : Nat
  min_size_human : String
  max_size : Nat
  max_size_human : String
deriving DecidableEq

/-- Date-distribution record of `MboxAnalyzer.calculate_statistics`
(`src/mbox_analyzer.py` lines 463-472): no monthly mean or median. -/
structure MADateStats where
  first_month : String
  last_month : String
  total_months : Nat
  busiest_month : String
  busiest_month_count : Nat
deriving DecidableEq

/-- Statistics object assembled by `MboxAnalyzer.calculate_statistics`:
conditionally present sections, with the size comparison always present. -/
structure MAStats where
  email_count : Nat
  top_senders : Option (List (String × Nat))
  unique_senders : Option Nat
  top_recipients : Option (List (String × Nat))
  unique_recipients : Option Nat
  plain_text_body : Option MABodyStats
  html_body : Option MABodyStats
  attachments : Option AttachmentStats
  missing_headers : Option MissingHeaderStats
  date_distribution : Option MADateStats
  size_comparison : SizeComparisonStats
deriving DecidableEq

/-- Body-size block of `MboxAnalyzer.calculate_statistics`
(`src/mbox_analyzer.py` lines 403-427), guarded by a non-empty size list. -/
def maBodyStats : List Nat → Option MABodyStats
  | [] => none
  | s :: ss =>
    let total := (s :: ss).sum
    let n := (s :: ss).length
    let avg : ℚ := (total : ℚ) / (n : ℚ)
    let mn := ss.foldl min s
    let mx := ss.foldl max s
    some { count := n
           total_size := total
           total_size_human := format_size (total : ℚ)
           avg_size := avg
           avg_size_human := format_size avg
           min_size := mn
           min_size_human := format_size (mn : ℚ)
           max_size := mx
           max_size_human := format_size (mx : ℚ) }

/-- Date-distribution block of `MboxAnalyzer.calculate_statistics`
(`src/mbox_analyzer.py` lines 463-472): lexicographic extremes of the month
keys, number of months, busiest month by Python's `max` over the items, and
the maximal monthly count. -/
def maDateStats : List (String × Nat) → Option MADateStats
  | [] => none
  | d :: ds =>
    some { first_month := ds.foldl (fun a y => min a y.1) d.1
           last_month := ds.foldl (fun a y => max a y.1) d.1
           total_months := (d :: ds).length
           busiest_month := (pickBusiest d ds).1
           busiest_month_count := ds.foldl (fun a y => max a y.2) d.2 }

/-- Size-comparison block of `MboxAnalyzer.calculate_statistics`
(`src/mbox_analyzer.py` lines 474-484): the percentage guard tests
`file_size > 0`. -/
def maSizeComparison (file_size parsed : Nat) : SizeComparisonStats :=
  let diff : ℤ := (file_size : ℤ) - (parsed : ℤ)
  { original_file_size := (file_size : ℤ)
    original_file_size_human := format_size (file_size : ℚ)
    parsed_data_size := (parsed : ℤ)
    parsed_data_size_human := format_size (parsed : ℚ)
    difference := diff
    difference_human := format_size (diff : ℚ)
    difference_percentage :=
      if 0 < file_size then (diff : ℚ) / (file_size : ℚ) * 100 else 0 }

/-- Embeds `MboxAnalyzer._calculate_parsed_data_size`
(`src/mbox_analyzer.py` lines 489-508): plain-text sizes plus html sizes plus
every attachment size list of the report. -/
def maParsedDataSize (c : ContentFacts) : Nat :=
  c.body_sizes.plain_text.sum + c.body_sizes.html.sum
    + (c.attachments.sizes_by_type.map (fun p => p.2.sum)).sum

/-- Header counters of the analyzer's report dictionary
(`src/mbox_analyzer.py` lines 72-80). -/
structure MboxHeaders where
  from_addrs : List (String × Nat)
  to_addrs : List (String × Nat)
  cc_addrs : List (String × Nat)
  bcc_addrs : List (String × Nat)
  subject_keywords : List (String × Nat)
  date_distribution : List (String × Nat)
  missing_headers : List (String × Nat)
deriving DecidableEq

/-- File-metadata section of the analyzer's report
(`src/mbox_analyzer.py` lines 108-115). -/
structure MboxFileMetadata where
  file_path : String
  file_size : Nat
  file_size_human : String
  email_count : Nat
deriving DecidableEq

/-- One recorded error entry of the analyzer's report. -/
structure MboxError where
  etype : String
  message : String
deriving DecidableEq

/-- Report dictionary of `MboxAnalyzer` (`src/mbox_analyzer.py` lines
70-93), with the statistics key absent until `calculate_statistics` sets
it. -/
structure MboxReport where
  file_metadata : MboxFileMetadata
  headers : MboxHeaders
  content : ContentFacts
  size_comparison : List (String × ℚ)
  errors : List MboxError
  statistics : Option MAStats
deriving DecidableEq

/-- Analyzer object state: the attributes read by `calculate_statistics`
plus the report dictionary. -/
structure MboxAnalyzerState where
  mbox_path : String
  file_size : Nat
  email_count : Nat
  report : MboxReport
deriving DecidableEq

/-- Statistics object computed by `MboxAnalyzer.calculate_statistics`
(`src/mbox_analyzer.py` lines 374-484) from the analyzer state: sender and
recipient summaries guarded by non-empty counters, body, attachment,
missing-header and date blocks, and the always-present size comparison. -/
def maStats (st : MboxAnalyzerState) : MAStats :=
  let h := st.report.headers
  let ct := st.report.content
  { email_count := st.email_count
    top_senders :=
      match h.from_addrs with
      | [] => none
      | c :: cs => some ((sortCountDesc (c :: cs)).take 10)
    unique_senders :=
      match h.from_addrs with
      | [] => none
      | c :: cs => some (c :: cs).length
    top_recipients :=
      match h.to_addrs with
      | [] => none
      | c :: cs => some ((sortCountDesc (c :: cs)).take 10)
    unique_recipients :=
      match h.to_addrs with
      | [] => none
      | c :: cs => some (c :: cs).length
    plain_text_body := maBodyStats ct.body_sizes.plain_text
    html_body := maBodyStats ct.body_sizes.html
    attachments := attachment_stats ct.attachments.counts_by_type
      ct.attachments.sizes_by_type
    missing_headers := missing_header_stats h.missing_headers
    date_distribution := maDateStats h.date_distribution
    size_comparison := maSizeComparison st.file_size (maParsedDataSize ct) }

/-- Embeds the state effect of `MboxAnalyzer.calculate_statistics`
(`src/mbox_analyzer.py` lines 374-487): the method reads the report and the
`file_size` and `email_count` attributes, and its only write is the
assignment of the statistics key. -/
def MA_calculate_statistics (st : MboxAnalyzerState) : MboxAnalyzerState :=
  { st with report := { st.report with statistics := some (maStats st) } }

theorem insertByCount_perm {α : Type} (x : α × Nat) (l : List (α × Nat)) :
    List.Perm (insertByCount x l) (x :: l) := by
  induction l with
  | nil => rfl
  | cons y ys ih =>
    by_cases h : y.2 ≤ x.2
    · simp [insertByCount, h]
    · simp only [insertByCount, if_neg h]
      exact (ih.cons y).trans (List.Perm.swap x y ys)

theorem sortCountDesc_perm {α : Type} (l : List (α × Nat)) :
    List.Perm (sortCountDesc l) l := by
  induction l with
  | nil => rfl
  | cons x xs ih =>
    exact (insertByCount_perm x (sortCountDesc xs)).trans (ih.cons x)

theorem pairwise_insertByCount {α : Type} (x : α × Nat) (l : List (α × Nat))
    (h : l.Pairwise (fun a b => b.2 ≤ a.2)) :
    (insertByCount x l).Pairwise (fun a b => b.2 ≤ a.2) := by
  induction l with
  | nil => simp [insertByCount]
  | cons y ys ih =>
    rcases List.pairwise_cons.mp h with ⟨hy, hys⟩
    by_cases hc : y.2 ≤ x.2
    · simp only [insertByCount, if_pos hc]
      refine List.pairwise_cons.mpr ⟨?_, h⟩
      intro z hz
      rcases List.mem_cons.mp hz with rfl | hz2
      · exact hc
      · exact le_trans (hy z hz2) hc
    · simp only [insertByCount, if_neg hc]
      refine List.pairwise_cons.mpr ⟨?_, ih hys⟩
      intro z hz
      have hz2 : z = x ∨ z ∈ ys := by
        simpa using (insertByCount_perm x ys).mem_iff.mp hz
      rcases hz2 with rfl | hz2
      · exact le_of_lt (lt_of_not_le hc)
      · exact hy z hz2

theorem sortCountDesc_pairwise {α : Type} (l : List (α × Nat)) :
    (sortCountDesc l).Pairwise (fun a b => b.2 ≤ a.2) := by
  induction l with
  | nil => simp [sortCountDesc]
  | cons x xs ih => exact pairwise_insertByCount x _ ih

theorem filter_insertByCount {α : Type} (x : α × Nat) (l : List (α × Nat)) (c : Nat) :
    (insertByCount x l).filter (fun z => z.2 == c)
      = if x.2 = c then x :: l.filter (fun z => z.2 == c)
        else l.filter (fun z => z.2 == c) := by
  induction l with
  | nil => by_cases hxc : x.2 = c <;> simp [insertByCount, List.filter_cons, hxc]
  | cons y ys ih =>
    by_cases hc : y.2 ≤ x.2
    · rw [insertByCount, if_pos hc, List.filter_cons]
      by_cases hxc : x.2 = c <;> simp [hxc]
    · have hyx : x.2 < y.2 := lt_of_not_le hc
      rw [insertByCount, if_neg hc, List.filter_cons, ih]
      by_cases hxc : x.2 = c
      · have hyc : ¬y.2 = c := by omega
        simp [List.filter_cons, hxc, hyc]
      · simp [List.filter_cons, hxc]

theorem sortCountDesc_filter {α : Type} (l : List (α × Nat)) (c : Nat) :
    (sortCountDesc l).filter (fun z => z.2 == c) = l.filter (fun z => z.2 == c) := by
  induction l with
  | nil => rfl
  | cons x xs ih =>
    rw [sortCountDesc, filter_insertByCount]
    by_cases hxc : x.2 = c <;> simp [List.filter_cons, hxc, ih]

theorem find?_eq_head?_filter {α : Type} (p : α → Bool) (l : List α) :
    l.find? p = (l.filter p).head? := by
  induction l with
  | nil => rfl
  | cons a l ih =>
    cases hpa : p a
    · rw [List.find?_cons_of_neg _ (by simp [hpa]), List.filter_cons, ih]
      simp [hpa]
    · rw [List.find?_cons_of_pos _ hpa, List.filter_cons]
      simp [hpa]

theorem sortCountDesc_head_spec {α : Type} (c : α × Nat) (cs : List (α × Nat)) :
    (∀ y ∈ c :: cs, y.2 ≤ ((sortCountDesc (c :: cs)).headD c).2) ∧
      (c :: cs).find? (fun y => y.2 == ((sortCountDesc (c :: cs)).headD c).2)
        = some ((sortCountDesc (c :: cs)).headD c) := by
  have hperm := sortCountDesc_perm (c :: cs)
  have hpw := sortCountDesc_pairwise (c :: cs)
  have hne : sortCountDesc (c :: cs) ≠ [] := by
    intro h
    have hlen := hperm.length_eq
    rw [h] at hlen
    simp at hlen
  obtain ⟨b, t, hbt⟩ := List.exists_cons_of_ne_nil hne
  rw [hbt]
  simp only [List.headD_cons]
  constructor
  · intro y hy
    have hys : y ∈ b :: t := by rw [← hbt]; exact hperm.mem_iff.mpr hy
    rcases List.mem_cons.mp hys with rfl | hyt
    · exact le_refl _
    · rw [hbt] at hpw
      exact (List.pairwise_cons.mp hpw).1 y hyt
  · rw [find?_eq_head?_filter, ← sortCountDesc_filter, hbt, List.filter_cons]
    simp

theorem pickBusiest_spec (x : String × Nat) (xs : List (String × Nat)) :
    (∀ y ∈ x :: xs, y.2 ≤ (pickBusiest x xs).2) ∧
      (x :: xs).find? (fun y => y.2 == (pickBusiest x xs).2) = some (pickBusiest x xs) := by
  induction xs generalizing x with
  | nil =>
    constructor
    · intro y hy
      rcases List.mem_cons.mp hy with rfl | h
      · exact le_refl _
      · simp at h
    · simp [pickBusiest, List.find?]
  | cons y ys ih =>
    have hstep : pickBusiest x (y :: ys) = pickBusiest (if x.2 < y.2 then y else x) ys := rfl
    by_cases hxy : x.2 < y.2
    · rw [hstep, if_pos hxy]
      obtain ⟨hbound, hfind⟩ := ih y
      constructor
      · intro w hw
        rcases List.mem_cons.mp hw with rfl | hw2
        · exact le_trans (le_of_lt hxy) (hbound y (List.mem_cons_self y ys))
        · exact hbound w hw2
      · have hxz : x.2 < (pickBusiest y ys).2 :=
          lt_of_lt_of_le hxy (hbound y (List.mem_cons_self y ys))
        rw [List.find?_cons_of_neg _ (by simp; omega)]
        exact hfind
    · rw [hstep, if_neg hxy]
      obtain ⟨hbound, hfind⟩ := ih x
      have hyx : y.2 ≤ x.2 := le_of_not_lt hxy
      constructor
      · intro w hw
        rcases List.mem_cons.mp hw with he | hw2
        · rw [he]; exact hbound x (List.mem_cons_self x ys)
        · rcases List.mem_cons.mp hw2 with he2 | hw3
          · rw [he2]; exact le_trans hyx (hbound x (List.mem_cons_self x ys))
          · exact hbound w (List.mem_cons.mpr (Or.inr hw3))
      · by_cases hxz : x.2 = (pickBusiest x ys).2
        · have hhead : (x :: ys).find? (fun w => w.2 == (pickBusiest x ys).2) = some x :=
            List.find?_cons_of_pos _ (by simp [hxz])
          have hzx : pickBusiest x ys = x := by
            have := hfind.symm.trans hhead
            exact Option.some.inj this
          rw [List.find?_cons_of_pos _ (by simp [hxz]), hzx]
        · have hxle : x.2 ≤ (pickBusiest x ys).2 := hbound x (List.mem_cons_self x ys)
          have hxlt : x.2 < (pickBusiest x ys).2 := lt_of_le_of_ne hxle hxz
          have hfind2 : ys.find? (fun w => w.2 == (pickBusiest x ys).2)
              = some (pickBusiest x ys) := by
            have := hfind
            rwa [List.find?_cons_of_neg _ (by simp [hxz])] at this
          rw [List.find?_cons_of_neg _ (by simp; omega),
            List.find?_cons_of_neg _ (by simp; omega)]
          exact hfind2

theorem foldl_min_spec {α : Type} [LinearOrder α] (l : List α) (a : α) :
    l.foldl min a ∈ a :: l ∧ ∀ x ∈ a :: l, l.foldl min a ≤ x := by
  induction l generalizing a with
  | nil =>
    constructor
    · simp [List.foldl]
    · intro x hx
      rcases List.mem_cons.mp hx with rfl | h
      · exact le_refl _
      · simp at h
  | cons b bs ih =>
    obtain ⟨hmem, hle⟩ := ih (min a b)
    constructor
    · rw [List.foldl_cons]
      rcases List.mem_cons.mp hmem with he | hin
      · rcases min_choice a b with hab | hab
        · rw [he, hab]; exact List.mem_cons_self a (b :: bs)
        · rw [he, hab]
          exact List.mem_cons.mpr (Or.inr (List.mem_cons_self b bs))
      · exact List.mem_cons.mpr (Or.inr (List.mem_cons.mpr (Or.inr hin)))
    · intro x hx
      rw [List.foldl_cons]
      have hacc : bs.foldl min (min a b) ≤ min a b :=
        hle (min a b) (List.mem_cons_self _ bs)
      rcases List.mem_cons.mp hx with rfl | hx2
      · exact le_trans hacc (min_le_left _ _)
      · rcases List.mem_cons.mp hx2 with rfl | hx3
        · exact le_trans hacc (min_le_right _ _)
        · exact hle x (List.mem_cons.mpr (Or.inr hx3))

theorem foldl_max_spec {α : Type} [LinearOrder α] (l : List α) (a : α) :
    l.foldl max a ∈ a :: l ∧ ∀ x ∈ a :: l, x ≤ l.foldl max a := by
  induction l generalizing a with
  | nil =>
    constructor
    · simp [List.foldl]
    · intro x hx
      rcases List.mem_cons.mp hx with rfl | h
      · exact le_refl _
      · simp at h
  | cons b bs ih =>
    obtain ⟨hmem, hle⟩ := ih (max a b)
    constructor
    · rw [List.foldl_cons]
      rcases List.mem_cons.mp hmem with he | hin
      · rcases max_choice a b with hab | hab
        · rw [he, hab]; exact List.mem_cons_self a (b :: bs)
        · rw [he, hab]
          exact List.mem_cons.mpr (Or.inr (List.mem_cons_self b bs))
      · exact List.mem_cons.mpr (Or.inr (List.mem_cons.mpr (Or.inr hin)))
    · intro x hx
      rw [List.foldl_cons]
      have hacc : max a b ≤ bs.foldl max (max a b) :=
        hle (max a b) (List.mem_cons_self _ bs)
      rcases List.mem_cons.mp hx with rfl | hx2
      · exact le_trans (le_max_left _ _) hacc
      · rcases List.mem_cons.mp hx2 with rfl | hx3
        · exact le_trans (le_max_right _ _) hacc
        · exact hle x (List.mem_cons.mpr (Or.inr hx3))

theorem bumpCount_sum (k : String) (l : List (String × Nat)) :
    ((bumpCount k l).map Prod.snd).sum = (l.map Prod.snd).sum + 1 := by
  induction l with
  | nil => simp [bumpCount]
  | cons p rest ih =>
    obtain ⟨a, n⟩ := p
    by_cases h : a = k
    · simp [bumpCount, h]
      omega
    · simp [bumpCount, h, ih]
      omega

theorem pushSize_lenSum (k : String) (sz : Nat) (l : List (String × List Nat)) :
    ((pushSize k sz l).map (fun p => p.2.length)).sum
      = (l.map (fun p => p.2.length)).sum + 1 := by
  induction l with
  | nil => simp [pushSize]
  | cons p rest ih =>
    obtain ⟨a, v⟩ := p
    by_cases h : a = k
    · simp [pushSize, h]
      omega
    · simp [pushSize, h, ih]
      omega

theorem recordAttachment_invariant (ext : String) (sz : Nat) (a : AttachmentsFacts)
    (h : attTotalCounts a = attTotalSizesLen a) :
    attTotalCounts (recordAttachment ext sz a)
      = attTotalSizesLen (recordAttachment ext sz a) := by
  simp only [attTotalCounts, attTotalSizesLen, recordAttachment, bumpCount_sum,
    pushSize_lenSum]
  simp only [attTotalCounts, attTotalSizesLen] at h
  omega

theorem pushBody_attachments (pts hts : Nat) (c : ContentFacts) :
    (pushBody pts hts c).attachments = c.attachments := by
  unfold pushBody
  by_cases h1 : 0 < pts <;> by_cases h2 : 0 < hts <;> simp [h1, h2]

theorem stepPart_invariant (acc : Nat × Nat × ContentFacts) (p : MimePart)
    (h : attTotalCounts acc.2.2.attachments = attTotalSizesLen acc.2.2.attachments) :
    attTotalCounts (stepPart acc p).2.2.attachments
      = attTotalSizesLen (stepPart acc p).2.2.attachments := by
  unfold stepPart
  by_cases hm : p.is_multipart
  · simpa [hm] using h
  · by_cases hatt : p.filename ≠ "" ∨ hasAttachmentWord p.disposition
    · simp only [hm, Bool.false_eq_true, if_false, if_pos hatt]
      exact recordAttachment_invariant _ _ _ h
    · simpa [hm, hatt] using h

theorem foldl_stepPart_invariant (parts : List MimePart) (acc : Nat × Nat × ContentFacts)
    (h : attTotalCounts acc.2.2.attachments = attTotalSizesLen acc.2.2.attachments) :
    attTotalCounts ((parts.foldl stepPart acc).2.2.attachments)
      = attTotalSizesLen ((parts.foldl stepPart acc).2.2.attachments) := by
  induction parts generalizing acc with
  | nil => exact h
  | cons p ps ih => exact ih _ (stepPart_invariant acc p h)

theorem analyze_content_invariant (m : MboxMessage) (c : ContentFacts)
    (h : attTotalCounts c.attachments = attTotalSizesLen c.attachments) :
    attTotalCounts (analyze_content m c).attachments
      = attTotalSizesLen (analyze_content m c).attachments := by
  cases m with
  | single p =>
    simp only [analyze_content]
    by_cases h1 : p.content_type = "text/plain"
    · rw [if_pos h1, pushBody_attachments]
      exact h
    · rw [if_neg h1]
      by_cases h2 : p.content_type = "text/html"
      · rw [if_pos h2, pushBody_attachments]
        exact h
      · rw [if_neg h2]
        by_cases h3 : p.filename ≠ ""
        · rw [if_pos h3]
          exact recordAttachment_invariant _ _ _ h
        · rw [if_neg h3]
          exact h
  | multi parts =>
    simp only [analyze_content]
    rw [pushBody_attachments]
    exact foldl_stepPart_invariant parts (0, 0, c) h

theorem pad2_length : ∀ n < 100, (pad2 n).length = 2 := by decide

theorem fmt2_shape (q : ℚ) :
    ∃ intPart frac : String, fmt2 q = intPart ++ "." ++ frac ∧ frac.length = 2 := by
  refine ⟨(if q < 0 then "-" else "")
      ++ toString ((roundHalfEven (|q| * 100)).toNat / 100),
    pad2 ((roundHalfEven (|q| * 100)).toNat % 100), rfl, ?_⟩
  exact pad2_length _ (Nat.mod_lt _ (by norm_num))

theorem fmt2_neg (q : ℚ) (hq : q < 0) : fmt2 q = "-" ++ fmt2 (-q) := by
  have h1 : ¬(-q < 0) := by linarith
  have h2 : |(-q)| = |q| := abs_neg q
  rw [fmt2, fmt2, if_pos hq, if_neg h1, h2]
  apply String.ext
  simp [String.data_append]

theorem div_pow_succ (q : ℚ) (j : Nat) : q / 1024 ^ (j + 1) = q / 1024 ^ j / 1024 := by
  rw [div_div, pow_succ]

theorem format_size_units (q : ℚ) :
    ∃ k, k ≤ 5 ∧ format_size q = fmt2 (q / 1024 ^ k) ++ " " ++ unitAt k ∧
      (k < 5 → q / 1024 ^ k < 1024) ∧ (∀ j, j < k → 1024 ≤ q / 1024 ^ j) ∧
      (q < 0 → k = 0) := by
  have e0 : q / 1024 ^ 0 = q := by norm_num
  have e1 : q / 1024 ^ 1 = q / 1024 := by norm_num
  have e2 : q / 1024 ^ 2 = q / 1024 / 1024 := by
    rw [div_pow_succ, e1]
  have e3 : q / 1024 ^ 3 = q / 1024 / 1024 / 1024 := by
    rw [div_pow_succ, e2]
  have e4 : q / 1024 ^ 4 = q / 1024 / 1024 / 1024 / 1024 := by
    rw [div_pow_succ, e3]
  have e5 : q / 1024 ^ 5 = q / 1024 / 1024 / 1024 / 1024 / 1024 := by
    rw [div_pow_succ, e4]
  by_cases h0 : q < 1024
  · refine ⟨0, by norm_num, ?_, fun _ => by rwa [e0], ?_, fun _ => rfl⟩
    · rw [e0]
      simp [format_size, formatSizeLoop, h0, unitAt]
    · intro j hj
      exact absurd hj (Nat.not_lt_zero j)
  by_cases h1 : q / 1024 < 1024
  · refine ⟨1, by norm_num, ?_, fun _ => by rwa [e1], ?_, ?_⟩
    · rw [e1]
      simp [format_size, formatSizeLoop, h0, h1, unitAt]
    · intro j hj
      have hj0 : j = 0 := by omega
      rw [hj0, e0]
      exact not_lt.mp h0
    · intro hneg
      exact absurd (lt_trans hneg (by norm_num)) h0
  by_cases h2 : q / 1024 / 1024 < 1024
  · refine ⟨2, by norm_num, ?_, fun _ => by rwa [e2], ?_, ?_⟩
    · rw [e2]
      simp [format_size, formatSizeLoop, h0, h1, h2, unitAt]
    · intro j hj
      interval_cases j
      · rw [e0]; exact not_lt.mp h0
      · rw [e1]; exact not_lt.mp h1
    · intro hneg
      exact absurd (lt_trans hneg (by norm_num)) h0
  by_cases h3 : q / 1024 / 1024 / 1024 < 1024
  · refine ⟨3, by norm_num, ?_, fun _ => by rwa [e3], ?_, ?_⟩
    · rw [e3]
      simp [format_size, formatSizeLoop, h0, h1, h2, h3, unitAt]
    · intro j hj
      interval_cases j
      · rw [e0]; exact not_lt.mp h0
      · rw [e1]; exact not_lt.mp h1
      · rw [e2]; exact not_lt.mp h2
    · intro hneg
      exact absurd (lt_trans hneg (by norm_num)) h0
  by_cases h4 : q / 1024 / 1024 / 1024 / 1024 < 1024
  · refine ⟨4, by norm_num, ?_, fun _ => by rwa [e4], ?_, ?_⟩
    · rw [e4]
      simp [format_size, formatSizeLoop, h0, h1, h2, h3, h4, unitAt]
    · intro j hj
      interval_cases j
      · rw [e0]; exact not_lt.mp h0
      · rw [e1]; exact not_lt.mp h1
      · rw [e2]; exact not_lt.mp h2
      · rw [e3]; exact not_lt.mp h3
    · intro hneg
      exact absurd (lt_trans hneg (by norm_num)) h0
  · refine ⟨5, le_refl 5, ?_, fun h => absurd h (by omega), ?_, ?_⟩
    · rw [e5]
      simp [format_size, formatSizeLoop, h0, h1, h2, h3, h4, unitAt]
    · intro j hj
      interval_cases j
      · rw [e0]; exact not_lt.mp h0
      · rw [e1]; exact not_lt.mp h1
      · rw [e2]; exact not_lt.mp h2
      · rw [e3]; exact not_lt.mp h3
      · rw [e4]; exact not_lt.mp h4
    · intro hneg
      exact absurd (lt_trans hneg (by norm_num)) h0

/-- C1: feeding `calculate_statistics` an accumulated-facts structure holding
only `file_metadata.email_count = 0`, with every other section absent, yields
a report whose `email_count` key is present and equal to `0` while every
other key is absent — an aggregator with empty input contributes nothing. -/
theorem C1_email_count_zero_roundtrip :
    calculate_statistics ⟨some ⟨some 0, none⟩, none, none⟩
      = ⟨some 0, none, none, none, none, none, none, none, none⟩ := rfl

/-- C5: `size_comparison_stats` always returns a populated record whose
`difference` is `original - parsed` (possibly negative) and whose
`difference_percentage` is `difference/original*100` for a non-zero original
size and exactly `0` for a zero original size; the function is total, so no
`ZeroDivisionError` can arise. -/
theorem C5_size_comparison_total (o p : ℤ) (ho : 0 ≤ o) (hp : 0 ≤ p) :
    (size_comparison_stats o p).original_file_size = o ∧
    (size_comparison_stats o p).parsed_data_size = p ∧
    (size_comparison_stats o p).difference = o - p ∧
    (o ≠ 0 → (size_comparison_stats o p).difference_percentage
        = ((o : ℚ) - (p : ℚ)) / (o : ℚ) * 100) ∧
    (o = 0 → (size_comparison_stats o p).difference_percentage = 0) := by
  refine ⟨rfl, rfl, rfl, ?_, ?_⟩
  · intro h
    simp [size_comparison_stats, h]
  · intro h
    simp [size_comparison_stats, h]

/-- Witness for C5 at the zero-size input of the spec's test list. -/
theorem C5_size_comparison_total_witness :
    (0 : ℤ) ≤ 0 ∧ (size_comparison_stats 0 0).difference_percentage = 0 :=
  ⟨le_refl 0, (C5_size_comparison_total 0 0 (le_refl 0) (le_refl 0)).2.2.2.2 rfl⟩

/-- C6: `calculate_parsed_data_size` returns exactly the sum of the
plain-text sizes, the html sizes and every attachment size list, with absent
keys contributing zero; the documented example evaluates to `3000`; and the
orchestrator's size comparison uses exactly this value as the parsed size. -/
theorem C6_parsed_data_size :
    (∀ bs as, calculate_parsed_data_size bs as
        = (lookupList bs "plain_text").sum + (lookupList bs "html").sum
          + (as.map (fun p => p.2.sum)).sum) ∧
    calculate_parsed_data_size [("plain_text", []), ("html", [1000])]
      [("pdf", [2000])] = 3000 ∧
    (∀ facts fm (fs : Nat), facts.file_metadata = some fm → fm.file_size = some fs →
      (calculate_statistics facts).size_comparison
        = some (size_comparison_stats (fs : ℤ)
            ((calculate_parsed_data_size
              (bodySizesPairs ((facts.content).getD emptyContent).body_sizes)
              ((facts.content).getD emptyContent).attachments.sizes_by_type : Nat) : ℤ))) := by
  refine ⟨fun bs as => rfl, by decide, ?_⟩
  intro facts fm fs h1 h2
  simp [calculate_statistics, h1, h2]

/-- Witness for C6 at concrete facts with a present file size. -/
theorem C6_parsed_data_size_witness :
    (calculate_statistics ⟨some ⟨none, some 500⟩, none,
        some ⟨⟨[], [1000]⟩, ⟨[("pdf", 1)], [("pdf", [2000])]⟩⟩⟩).size_comparison
      = some (size_comparison_stats (500 : ℤ) (3000 : ℤ)) := by
  have h := C6_parsed_data_size.2.2 ⟨some ⟨none, some 500⟩, none,
    some ⟨⟨[], [1000]⟩, ⟨[("pdf", 1)], [("pdf", [2000])]⟩⟩⟩ ⟨none, some 500⟩ 500 rfl rfl
  rw [h]
  decide

/-- C7: for every input, `format_size` scales by successive division by 1024
through B, KB, MB, GB, TB, choosing the first unit whose scaled value is
below 1024 with PB terminal after five divisions, renders the scaled value
with exactly two decimal places and a single space before the unit, and
preserves the sign of negative inputs (which stay at the B unit); the three
documented values evaluate accordingly. -/
theorem C7_format_size_contract :
    (∀ q : ℚ, ∃ k, k ≤ 5 ∧
        format_size q = fmt2 (q / 1024 ^ k) ++ " " ++ unitAt k ∧
        (k < 5 → q / 1024 ^ k < 1024) ∧ (∀ j, j < k → 1024 ≤ q / 1024 ^ j) ∧
        (q < 0 → k = 0)) ∧
    (∀ q : ℚ, ∃ intPart frac : String,
        fmt2 q = intPart ++ "." ++ frac ∧ frac.length = 2) ∧
    (∀ q : ℚ, q < 0 → fmt2 q = "-" ++ fmt2 (-q)) ∧
    format_size 0 = "0.00 B" ∧ format_size 1024 = "1.00 KB" ∧
    format_size (1024 ^ 4) = "1.00 TB" :=
  ⟨format_size_units, fmt2_shape, fmt2_neg, by decide, by decide, by decide⟩

/-- Witness for C7, instantiating the unit characterization at 2048. -/
theorem C7_format_size_contract_witness :
    ∃ k, k ≤ 5 ∧
      format_size 2048 = fmt2 ((2048 : ℚ) / 1024 ^ k) ++ " " ++ unitAt k ∧
      (k < 5 → (2048 : ℚ) / 1024 ^ k < 1024) ∧
      (∀ j, j < k → 1024 ≤ (2048 : ℚ) / 1024 ^ j) ∧
      ((2048 : ℚ) < 0 → k = 0) :=
  C7_format_size_contract.1 2048

/-- C9: starting from the empty accumulator, after any sequence of
per-message content-analysis steps the total of the attachment counts equals
the total number of recorded attachment sizes, because each count increment
is paired with exactly one appended size. -/
theorem C9_attachment_accumulation_invariant (ms : List MboxMessage) :
    attTotalCounts (runContent ms).attachments
      = attTotalSizesLen (runContent ms).attachments := by
  suffices h : ∀ c, attTotalCounts c.attachments = attTotalSizesLen c.attachments →
      attTotalCounts ((ms.foldl (fun c m => analyze_content m c) c).attachments)
        = attTotalSizesLen ((ms.foldl (fun c m => analyze_content m c) c).attachments) by
    exact h emptyContent rfl
  induction ms with
  | nil => exact fun c hc => hc
  | cons m rest ih => exact fun c hc => ih _ (analyze_content_invariant m c hc)

/-- C10: `calculate_statistics` of the analyzer changes the report only by
setting the statistics key; the file-metadata, headers, content,
size-comparison and errors sections, and the analyzer attributes, are
untouched for every state. -/
theorem C10_calculate_statistics_frame (st : MboxAnalyzerState) :
    (MA_calculate_statistics st).report.file_metadata = st.report.file_metadata ∧
    (MA_calculate_statistics st).report.headers = st.report.headers ∧
    (MA_calculate_statistics st).report.content = st.report.content ∧
    (MA_calculate_statistics st).report.size_comparison = st.report.size_comparison ∧
    (MA_calculate_statistics st).report.errors = st.report.errors ∧
    (MA_calculate_statistics st).mbox_path = st.mbox_path ∧
    (MA_calculate_statistics st).file_size = st.file_size ∧
    (MA_calculate_statistics st).email_count = st.email_count ∧
    (MA_calculate_statistics st).report.statistics = some (maStats st) :=
  ⟨rfl, rfl, rfl, rfl, rfl, rfl, rfl, rfl, rfl⟩

/-- C2: for every non-empty size list the body-size summary carries the
count, the total, the exact (unrounded) average, the minimum, maximum and
median of the list, each size field with a `format_size` human sibling; the
empty list yields no record. -/
theorem C2_body_size_stats_contract (sizes : List Nat) :
    body_size_stats [] = none ∧
    (sizes ≠ [] → ∃ r, body_size_stats sizes = some r ∧
      r.count = sizes.length ∧
      r.total_size = sizes.sum ∧
      r.avg_size = (sizes.sum : ℚ) / (sizes.length : ℚ) ∧
      r.median_size = calculate_median (sizes.map (fun k => (k : ℚ))) ∧
      r.min_size ∈ sizes ∧ (∀ x ∈ sizes, r.min_size ≤ x) ∧
      r.max_size ∈ sizes ∧ (∀ x ∈ sizes, x ≤ r.max_size) ∧
      r.total_size_human = format_size (r.total_size : ℚ) ∧
      r.avg_size_human = format_size r.avg_size ∧
      r.min_size_human = format_size (r.min_size : ℚ) ∧
      r.max_size_human = format_size (r.max_size : ℚ) ∧
      r.median_size_human = format_size r.median_size) := by
  refine ⟨rfl, ?_⟩
  intro hne
  cases sizes with
  | nil => exact absurd rfl hne
  | cons s ss =>
    exact ⟨_, rfl, rfl, rfl, rfl, rfl, (foldl_min_spec ss s).1, (foldl_min_spec ss s).2,
      (foldl_max_spec ss s).1, (foldl_max_spec ss s).2, rfl, rfl, rfl, rfl, rfl⟩

/-- Witness for C2 at the spec's five-element size list. -/
theorem C2_body_size_stats_contract_witness :
    ([1000, 2000, 3000, 4000, 5000] : List Nat) ≠ [] ∧
    ∃ r, body_size_stats [1000, 2000, 3000, 4000, 5000] = some r ∧
      r.count = 5 ∧ r.total_size = 15000 ∧ r.median_size = 3000 := by
  refine ⟨by decide, ?_⟩
  obtain ⟨r, hr, hc, ht, _, hm, _⟩ :=
    (C2_body_size_stats_contract [1000, 2000, 3000, 4000, 5000]).2 (by decide)
  refine ⟨r, hr, by rw [hc]; rfl, by rw [ht]; rfl, by rw [hm]; decide⟩

/-- C3: for every non-empty month distribution the date summary contains the
lexicographically smallest and largest month keys, the number of distinct
keys, the first-seen month of maximal count together with that maximal count,
and the mean and median of the monthly counts. -/
theorem C3_date_distribution_contract (dist : List (String × Nat))
    (hne : dist ≠ []) (hkeys : (dist.map Prod.fst).Nodup) :
    ∃ r, date_distribution_stats dist = some r ∧
      r.first_month ∈ dist.map Prod.fst ∧
      (∀ k ∈ dist.map Prod.fst, r.first_month ≤ k) ∧
      r.last_month ∈ dist.map Prod.fst ∧
      (∀ k ∈ dist.map Prod.fst, k ≤ r.last_month) ∧
      r.total_months = dist.length ∧
      dist.find? (fun p => p.2 == r.busiest_month_count)
        = some (r.busiest_month, r.busiest_month_count) ∧
      (∀ p ∈ dist, p.2 ≤ r.busiest_month_count) ∧
      r.monthly_average = (dist.map (fun p => (p.2 : ℚ))).sum / (dist.length : ℚ) ∧
      r.monthly_median = calculate_median (dist.map (fun p => (p.2 : ℚ))) := by
  cases dist with
  | nil => exact absurd rfl hne
  | cons d ds =>
    refine ⟨_, rfl, ?_, ?_, ?_, ?_, rfl, (pickBusiest_spec d ds).2,
      (pickBusiest_spec d ds).1, ?_, rfl⟩
    · have h := (foldl_min_spec (ds.map Prod.fst) d.1).1
      rw [List.foldl_map] at h
      exact h
    · intro k hk
      have h := (foldl_min_spec (ds.map Prod.fst) d.1).2 k hk
      rw [List.foldl_map] at h
      exact h
    · have h := (foldl_max_spec (ds.map Prod.fst) d.1).1
      rw [List.foldl_map] at h
      exact h
    · intro k hk
      have h := (foldl_max_spec (ds.map Prod.fst) d.1).2 k hk
      rw [List.foldl_map] at h
      exact h
    · simp [calculate_mean]

/-- Witness for C3 at the spec's six-month distribution. -/
theorem C3_date_distribution_contract_witness :
    ([("2022-01", 10), ("2022-02", 15), ("2022-03", 20), ("2022-04", 8),
        ("2022-05", 12), ("2022-06", 18)] : List (String × Nat)) ≠ [] ∧
    ∃ r, date_distribution_stats [("2022-01", 10), ("2022-02", 15), ("2022-03", 20),
        ("2022-04", 8), ("2022-05", 12), ("2022-06", 18)] = some r ∧
      r.total_months = 6 := by
  refine ⟨by decide, ?_⟩
  obtain ⟨r, hr, _, _, _, _, htm, _⟩ :=
    C3_date_distribution_contract [("2022-01", 10), ("2022-02", 15), ("2022-03", 20),
      ("2022-04", 8), ("2022-05", 12), ("2022-06", 18)] (by decide) (by decide)
  exact ⟨r, hr, by rw [htm]; rfl⟩

/-- C4: for every non-empty counter the sender summary has
`unique_senders = len`, a `top_senders` list of length `min 10 len` that is a
stable descending-by-count rearrangement (ties in first-counted order), and a
most-frequent entry that is the first entry attaining the maximal count;
the recipient summary is structurally identical on the same counter. -/
theorem C4_sender_recipient_stats_contract (C : List (String × Nat)) (hne : C ≠ []) :
    ∃ s r, sender_stats C = some s ∧ recipient_stats C = some r ∧
      s.unique_senders = C.length ∧ r.unique_recipients = C.length ∧
      s.top_senders = (sortCountDesc C).take 10 ∧
      r.top_recipients = (sortCountDesc C).take 10 ∧
      s.top_senders.length = min 10 C.length ∧
      List.Perm (sortCountDesc C) C ∧
      (sortCountDesc C).Pairwise (fun a b => b.2 ≤ a.2) ∧
      (∀ c, (sortCountDesc C).filter (fun z => z.2 == c)
        = C.filter (fun z => z.2 == c)) ∧
      (∀ y ∈ C, y.2 ≤ s.most_frequent_sender_count) ∧
      C.find? (fun y => y.2 == s.most_frequent_sender_count)
        = some (s.most_frequent_sender, s.most_frequent_sender_count) ∧
      r.most_frequent_recipient = s.most_frequent_sender ∧
      r.most_frequent_recipient_count = s.most_frequent_sender_count := by
  cases C with
  | nil => exact absurd rfl hne
  | cons c cs =>
    refine ⟨_, _, rfl, rfl, rfl, rfl, rfl, rfl, ?_, sortCountDesc_perm _,
      sortCountDesc_pairwise _, fun k => sortCountDesc_filter _ k,
      (sortCountDesc_head_spec c cs).1, (sortCountDesc_head_spec c cs).2, rfl, rfl⟩
    rw [List.length_take, (sortCountDesc_perm (c :: cs)).length_eq]

/-- Witness for C4 at the spec's four-sender counter. -/
theorem C4_sender_recipient_stats_contract_witness :
    ([("user1@example.com", 10), ("user2@example.com", 5), ("user3@example.com", 3),
        ("user4@example.com", 1)] : List (String × Nat)) ≠ [] ∧
    ∃ s r, sender_stats [("user1@example.com", 10), ("user2@example.com", 5),
        ("user3@example.com", 3), ("user4@example.com", 1)] = some s ∧
      recipient_stats [("user1@example.com", 10), ("user2@example.com", 5),
        ("user3@example.com", 3), ("user4@example.com", 1)] = some r ∧
      s.unique_senders = 4 ∧ s.top_senders.length = 4 := by
  refine ⟨by decide, ?_⟩
  obtain ⟨s, r, hs, hr, hu, _, _, _, hlen, _⟩ :=
    C4_sender_recipient_stats_contract [("user1@example.com", 10), ("user2@example.com", 5),
      ("user3@example.com", 3), ("user4@example.com", 1)] (by decide)
  exact ⟨s, r, hs, hr, by rw [hu]; rfl, by rw [hlen]; rfl⟩

theorem attachment_stats_checked_ok (counts : List (String × Nat))
    (sizes : List (String × List Nat))
    (h : counts = [] ∨ 0 < (counts.map Prod.snd).sum) :
    attachment_stats_checked counts sizes = Except.ok (attachment_stats counts sizes) := by
  cases counts with
  | nil => rfl
  | cons c cs =>
    rcases h with h | h
    · exact absurd h (List.cons_ne_nil c cs)
    · rw [attachment_stats_checked, if_neg (by omega)]
      rfl

/-- Counterexample for C8 as stated: the claim quantifies over every
non-empty attachment count mapping, but on the counter with the single zero
count the attachment-statistics block raises `ZeroDivisionError` at
`(count / total_attachments) * 100` — no attachment summary is produced at
all, so no `by_type` percentages exist, let alone percentages summing to
`100`. -/
theorem C8_attachment_percentage_counterexample :
    attachment_stats_checked [("pdf", 0)] [] = Except.error "ZeroDivisionError" := rfl

/-- C8 amended: for every non-empty attachment count mapping whose counts
have a positive total (at least one count nonzero) and every size mapping,
the block completes without raising, `by_type` has one entry per extension,
is a stable descending-by-count rearrangement of the counter, each entry
carries `percentage = count/total*100` and the total size looked up from the
size mapping (zero when absent), the entry counts sum to `total_count`, and
the percentages sum to exactly `100` in exact arithmetic. -/
theorem C8_attachment_stats_amended (counts : List (String × Nat))
    (sizes : List (String × List Nat)) (hne : counts ≠ [])
    (htot : 0 < (counts.map Prod.snd).sum) :
    ∃ r, attachment_stats counts sizes = some r ∧
      attachment_stats_checked counts sizes = Except.ok (some r) ∧
      r.total_count = (counts.map Prod.snd).sum ∧
      r.unique_types = counts.length ∧
      r.by_type.length = counts.length ∧
      r.by_type.map (fun e => (e.type, e.count)) = sortCountDesc counts ∧
      List.Perm (sortCountDesc counts) counts ∧
      (sortCountDesc counts).Pairwise (fun a b => b.2 ≤ a.2) ∧
      (∀ c, (sortCountDesc counts).filter (fun z => z.2 == c)
        = counts.filter (fun z => z.2 == c)) ∧
      (∀ e ∈ r.by_type, e.percentage = (e.count : ℚ) / (r.total_count : ℚ) * 100 ∧
        e.total_size = (lookupSizes sizes e.type).sum) ∧
      (r.by_type.map (fun e => e.count)).sum = r.total_count ∧
      (r.by_type.map (fun e => e.percentage)).sum = 100 := by
  cases counts with
  | nil => exact absurd rfl hne
  | cons c cs =>
    have hTne : ((((c :: cs).map Prod.snd).sum : Nat) : ℚ) ≠ 0 :=
      Nat.cast_ne_zero.mpr (by omega)
    have hsnd : ((sortCountDesc (c :: cs)).map Prod.snd).sum
        = ((c :: cs).map Prod.snd).sum :=
      ((sortCountDesc_perm (c :: cs)).map Prod.snd).sum_eq
    refine ⟨_, rfl, ?_, rfl, rfl, ?_, ?_, sortCountDesc_perm _, sortCountDesc_pairwise _,
      fun k => sortCountDesc_filter _ k, ?_, ?_, ?_⟩
    · rw [attachment_stats_checked_ok (c :: cs) sizes (Or.inr htot)]
      rfl
    · rw [List.length_map, (sortCountDesc_perm (c :: cs)).length_eq]
    · rw [List.map_map]
      have hcomp : ((fun e : AttachmentTypeEntry => (e.type, e.count))
          ∘ attachmentEntry (((c :: cs).map Prod.snd).sum) sizes) = id :=
        funext fun ec => rfl
      rw [hcomp, List.map_id]
    · intro e he
      rcases List.mem_map.mp he with ⟨ec, hec, hfe⟩
      rw [← hfe]
      exact ⟨rfl, rfl⟩
    · rw [List.map_map]
      have hcomp : ((fun e : AttachmentTypeEntry => e.count)
          ∘ attachmentEntry (((c :: cs).map Prod.snd).sum) sizes) = Prod.snd :=
        funext fun ec => rfl
      rw [hcomp]
      exact hsnd
    · rw [List.map_map]
      have hcomp : ((fun e : AttachmentTypeEntry => e.percentage)
          ∘ attachmentEntry (((c :: cs).map Prod.snd).sum) sizes)
          = fun ec : String × Nat =>
              (ec.2 : ℚ) * (100 / ((((c :: cs).map Prod.snd).sum : Nat) : ℚ)) :=
        funext fun ec => by
          show (ec.2 : ℚ) / ((((c :: cs).map Prod.snd).sum : Nat) : ℚ) * 100 = _
          ring
      rw [hcomp, List.sum_map_mul_right]
      have hcast : ((sortCountDesc (c :: cs)).map
            (fun ec : String × Nat => (ec.2 : ℚ))).sum
          = ((((c :: cs).map Prod.snd).sum : Nat) : ℚ) := by
        have h1 : ((sortCountDesc (c :: cs)).map
              (fun ec : String × Nat => (ec.2 : ℚ)))
            = ((sortCountDesc (c :: cs)).map Prod.snd).map Nat.cast := by
          rw [List.map_map]
          rfl
        rw [h1, ← Nat.cast_list_sum, hsnd]
      rw [hcast, mul_comm, div_mul_cancel₀ _ hTne]

/-- Witness for the amended C8 at a two-extension counter with positive
counts. -/
theorem C8_attachment_stats_amended_witness :
    ([("pdf", 2), ("doc", 2)] : List (String × Nat)) ≠ [] ∧
    ∃ r, attachment_stats [("pdf", 2), ("doc", 2)] [("pdf", [100, 200])] = some r ∧
      (r.by_type.map (fun e => e.percentage)).sum = 100 ∧
      (r.by_type.map (fun e => e.count)).sum = r.total_count := by
  refine ⟨by decide, ?_⟩
  obtain ⟨r, hr, _, _, _, _, _, _, _, _, _, hcnt, hpct⟩ :=
    C8_attachment_stats_amended [("pdf", 2), ("doc", 2)] [("pdf", [100, 200])]
      (by decide) (by decide)
  exact ⟨r, hr, hpct, hcnt⟩
